import Mathlib

/-!
Verification of the OpenClaw WebChat core client (packages/core/src/client.ts)
against its natural-language specification.  The TypeScript client is shallowly
embedded: JavaScript strings are Lean strings (length and slice act on the
character list), nullable values are Option, JavaScript truthiness on strings
is modelled explicitly, and the stateful handlers become pure functions from a
state to a state paired with the list of notifications they emit.
-/

/-! ## String primitives

JavaScript string operations used by the client, modelled on the character
list of a Lean string.  `strLen` is js length, `strDrop` is slice(n),
`strLower` is toLowerCase, `strJoin` is Array.join with empty separator and
`hasSub` is String.includes. -/

def strLen (s : String) : Nat := s.data.length

def strDrop (s : String) (n : Nat) : String := ⟨s.data.drop n⟩

def strLower (s : String) : String := ⟨s.data.map Char.toLower⟩

def strJoin (l : List String) : String := ⟨(l.map String.data).flatten⟩

def listLeads : List Char → List Char → Bool
  | [], _ => true
  | _ :: _, [] => false
  | a :: as, b :: bs => a == b && listLeads as bs

def listSub (n : List Char) : List Char → Bool
  | [] => n.isEmpty
  | b :: bs => listLeads n (b :: bs) || listSub n bs

def hasSub (h n : String) : Bool := listSub n.data h.data

/-- JavaScript truthiness of a nullable string: null, undefined and the empty
string are falsy. -/
def optStrTruthy : Option String → Bool
  | none => false
  | some s => if s = "" then false else true

theorem strData_append (a b : String) : (a ++ b).data = a.data ++ b.data := by
  cases a; cases b; rfl

theorem strExt {a b : String} (h : a.data = b.data) : a = b := by
  cases a; cases b; exact congrArg String.mk h

/-! ## Streaming reassembler (client.ts handleChatEvent, lines 413-462)

A chat-progress event carries an optional run id, sequence number, state tag
("delta" or "final"), message content blocks and timestamp.  The tracked state
is the pair (currentStreamingMessageId, lastStreamedContent).  The handler is
split into the three sequential blocks of the source: the stream-start block,
the chunk-diff block and the final block; `handleChatEvent` runs them in
order, concatenating emissions. -/

structure Message where
  id : String
  role : String
  content : String
  timestamp : Nat
deriving DecidableEq, Repr

structure ContentBlock where
  type : String
  text : String
deriving DecidableEq, Repr

structure ChatEventPayload where
  runId : Option String
  seq : Option Nat
  state : Option String
  content : Option (List ContentBlock)
  timestamp : Option Nat
deriving DecidableEq, Repr

structure StreamState where
  currentStreamingMessageId : Option String
  lastStreamedContent : String
deriving DecidableEq, Repr

inductive StreamEmission where
  | streamStart (messageId : String)
  | streamChunk (messageId : String) (chunk : String)
  | messageOut (msg : Message)
  | streamEnd (messageId : String)
deriving DecidableEq, Repr

def initialStreamState : StreamState := ⟨none, ""⟩

/-- chatPayload.runId with the js fallback: a missing or empty run id becomes
the literal id "stream". -/
def messageIdOf (runId : Option String) : String :=
  match runId with
  | some r => if r = "" then "stream" else r
  | none => "stream"

/-- Cumulative text of the event: texts of the blocks typed "text", joined. -/
def fullContentOf (p : ChatEventPayload) : String :=
  strJoin (((p.content.getD []).filter (fun b => b.type = "text")).map (fun b => b.text))

/-- chatPayload.message?.timestamp with 0 falsy, defaulting to Date.now(). -/
def timestampOf (ts : Option Nat) (now : Nat) : Nat :=
  match ts with
  | some t => if t = 0 then now else t
  | none => now

/-- Lines 435-439: on a delta with no tracked run, start tracking and emit
stream-start. -/
def chatStartStep (s : StreamState) (stateTag : Option String) (messageId : String) :
    StreamState × List StreamEmission :=
  if optStrTruthy s.currentStreamingMessageId = false ∧ stateTag = some "delta" then
    (⟨some messageId, ""⟩, [StreamEmission.streamStart messageId])
  else (s, [])

/-- Lines 441-447: when the cumulative text grew, the chunk is its suffix past
the previously seen length; it is emitted when non-empty and a run is tracked,
and the tracked text is updated either way. -/
def chatChunkStep (s : StreamState) (fullContent : String) :
    StreamState × List StreamEmission :=
  if strLen s.lastStreamedContent < strLen fullContent then
    (⟨s.currentStreamingMessageId, fullContent⟩,
      if strDrop fullContent (strLen s.lastStreamedContent) ≠ "" ∧
          optStrTruthy s.currentStreamingMessageId = true then
        [StreamEmission.streamChunk (s.currentStreamingMessageId.getD "")
          (strDrop fullContent (strLen s.lastStreamedContent))]
      else [])
  else (s, [])

/-- Lines 449-461: on a final event, emit the completed assistant message and
stream-end, then clear the tracked run. -/
def chatFinalStep (s : StreamState) (stateTag : Option String)
    (messageId fullContent : String) (ts : Option Nat) (now : Nat) :
    StreamState × List StreamEmission :=
  if stateTag = some "final" then
    (initialStreamState,
      [StreamEmission.messageOut
        ⟨messageId, "assistant", fullContent, timestampOf ts now⟩,
        StreamEmission.streamEnd messageId])
  else (s, [])

def handleChatEvent (s : StreamState) (p : ChatEventPayload) (now : Nat) :
    StreamState × List StreamEmission :=
  let messageId := messageIdOf p.runId
  let fullContent := fullContentOf p
  let r1 := chatStartStep s p.state messageId
  let r2 := chatChunkStep r1.1 fullContent
  let r3 := chatFinalStep r2.1 p.state messageId fullContent p.timestamp now
  (r3.1, r1.2 ++ r2.2 ++ r3.2)

def chunkTextsOf (out : List StreamEmission) : List String :=
  out.filterMap fun e =>
    match e with
    | StreamEmission.streamChunk _ c => some c
    | _ => none

def messagesOf (out : List StreamEmission) : List Message :=
  out.filterMap fun e =>
    match e with
    | StreamEmission.messageOut m => some m
    | _ => none

def streamEndsOf (out : List StreamEmission) : List String :=
  out.filterMap fun e =>
    match e with
    | StreamEmission.streamEnd i => some i
    | _ => none

/-- A delta chat-progress event for a run, carrying one text block with the
cumulative text, as produced by the gateway. -/
def deltaPayload (id text : String) : ChatEventPayload :=
  ⟨some id, none, some "delta", some [⟨"text", text⟩], none⟩

/-- Feeding a sequence of delta events for one run through the handler,
collecting all emissions. -/
def runDeltaTexts (s : StreamState) (id : String) (texts : List String) (now : Nat) :
    StreamState × List StreamEmission :=
  match texts with
  | [] => (s, [])
  | t :: ts =>
    let r := handleChatEvent s (deltaPayload id t) now
    let rest := runDeltaTexts r.1 id ts now
    (rest.1, r.2 ++ rest.2)

theorem strDrop_data (s : String) (n : Nat) : (strDrop s n).data = s.data.drop n := rfl

theorem strDrop_ne_empty {a : String} {n : Nat} (h : n < strLen a) : strDrop a n ≠ "" := by
  intro he
  have hd : a.data.drop n = [] := by
    have := congrArg String.data he
    simpa [strDrop_data] using this
  have := List.drop_eq_nil_iff.mp hd
  exact absurd h (by simpa [strLen] using Nat.not_lt.mpr this)

theorem strLen_le_of_strDrop_empty {a : String} {n : Nat} (h : strDrop a n = "") :
    strLen a ≤ n := by
  have hd : a.data.drop n = [] := by
    have := congrArg String.data h
    simpa [strDrop_data] using this
  simpa [strLen] using List.drop_eq_nil_iff.mp hd

/-- Shape of the handler on a delta event for an already-tracked run: when the
cumulative text grew, exactly the suffix past the old length is emitted and
the tracked text becomes the new cumulative text; otherwise nothing is emitted
and the state is untouched. -/
theorem handleChatEvent_tracked_delta (id prev : String) (p : ChatEventPayload) (now : Nat)
    (hid : id ≠ "") (hd : p.state = some "delta") :
    handleChatEvent ⟨some id, prev⟩ p now =
      if strLen prev < strLen (fullContentOf p) then
        (⟨some id, fullContentOf p⟩,
          [StreamEmission.streamChunk id (strDrop (fullContentOf p) (strLen prev))])
      else (⟨some id, prev⟩, []) := by
  have htr : optStrTruthy (some id) = true := by simp [optStrTruthy, hid]
  by_cases hlt : strLen prev < strLen (fullContentOf p)
  · have hne := strDrop_ne_empty hlt
    simp [handleChatEvent, chatStartStep, chatChunkStep, chatFinalStep, htr, hd, hlt, hne]
  · simp [handleChatEvent, chatStartStep, chatChunkStep, chatFinalStep, htr, hd, hlt]

/-- C2: on a delta event for an already-tracked run whose cumulative text is
longer than the previously seen one, the emitted stream-chunk is exactly the
suffix of the new cumulative text starting at the previous length, and no
stream-chunk is emitted when that suffix is empty; the cumulative texts "Hel"
then "Hello" emit chunk "Hel" then chunk "lo". -/
theorem streamChunk_is_suffix (id prev : String) (p : ChatEventPayload) (now : Nat)
    (hid : id ≠ "") (hrun : p.runId = some id) (hd : p.state = some "delta") :
    (strLen prev < strLen (fullContentOf p) →
      (handleChatEvent ⟨some id, prev⟩ p now).2 =
        [StreamEmission.streamChunk id (strDrop (fullContentOf p) (strLen prev))]) ∧
    (strDrop (fullContentOf p) (strLen prev) = "" →
      chunkTextsOf (handleChatEvent ⟨some id, prev⟩ p now).2 = []) ∧
    (chunkTextsOf (handleChatEvent initialStreamState (deltaPayload "r1" "Hel") 0).2
        = ["Hel"] ∧
      chunkTextsOf (handleChatEvent
          (handleChatEvent initialStreamState (deltaPayload "r1" "Hel") 0).1
          (deltaPayload "r1" "Hello") 0).2 = ["lo"]) := by
  refine ⟨fun hlt => ?_, fun hdrop => ?_, by decide⟩
  · rw [handleChatEvent_tracked_delta id prev p now hid hd, if_pos hlt]
  · have hle : ¬ strLen prev < strLen (fullContentOf p) := by
      have := strLen_le_of_strDrop_empty hdrop
      omega
    rw [handleChatEvent_tracked_delta id prev p now hid hd, if_neg hle]
    rfl

/-- C2 witness: the general part applied to the tracked state after "Hel"
receiving cumulative text "Hello". -/
theorem streamChunk_is_suffix_witness :
    (handleChatEvent ⟨some "r1", "Hel"⟩ (deltaPayload "r1" "Hello") 0).2 =
      [StreamEmission.streamChunk "r1" (strDrop (fullContentOf (deltaPayload "r1" "Hello")) (strLen "Hel"))] :=
  (streamChunk_is_suffix "r1" "Hel" (deltaPayload "r1" "Hello") 0 (by decide) rfl rfl).1
    (by decide)

/-- C4: a final chat-progress event emits exactly one message notification,
carrying the full cumulative text as an assistant message, and exactly one
stream-end notification, from any prior tracked state (including the state
with no preceding delta), and the tracked run state is cleared. -/
theorem chat_final_emits_once (s : StreamState) (p : ChatEventPayload) (now : Nat)
    (hf : p.state = some "final") :
    messagesOf (handleChatEvent s p now).2 =
      [⟨messageIdOf p.runId, "assistant", fullContentOf p, timestampOf p.timestamp now⟩] ∧
    streamEndsOf (handleChatEvent s p now).2 = [messageIdOf p.runId] ∧
    (handleChatEvent s p now).1 = initialStreamState := by
  simp only [handleChatEvent, chatStartStep, chatChunkStep, chatFinalStep, hf]
  split_ifs <;> simp_all [messagesOf, streamEndsOf]

/-- C4 witness: a final event with no preceding delta events, from the
initial untracked state. -/
theorem chat_final_emits_once_witness :
    messagesOf (handleChatEvent initialStreamState
        ⟨some "r9", some 3, some "final", some [⟨"text", "done!"⟩], some 77⟩ 5).2 =
      [⟨"r9", "assistant", "done!", 77⟩] ∧
    streamEndsOf (handleChatEvent initialStreamState
        ⟨some "r9", some 3, some "final", some [⟨"text", "done!"⟩], some 77⟩ 5).2 = ["r9"] := by
  have h := chat_final_emits_once initialStreamState
    ⟨some "r9", some 3, some "final", some [⟨"text", "done!"⟩], some 77⟩ 5 rfl
  exact ⟨by rw [h.1]; decide, by rw [h.2.1]; decide⟩

/-- C10: a delta event of an active run whose cumulative text is not longer
than the previously seen one emits no stream-chunk and leaves the tracked
state unchanged; in general a delta on an active run never shrinks the
tracked accumulated text. -/
theorem delta_regression_ignored (id prev : String) (p : ChatEventPayload) (now : Nat)
    (hid : id ≠ "") (hrun : p.runId = some id) (hd : p.state = some "delta") :
    (strLen (fullContentOf p) ≤ strLen prev →
      chunkTextsOf (handleChatEvent ⟨some id, prev⟩ p now).2 = [] ∧
      (handleChatEvent ⟨some id, prev⟩ p now).1 = ⟨some id, prev⟩) ∧
    strLen prev ≤ strLen (handleChatEvent ⟨some id, prev⟩ p now).1.lastStreamedContent := by
  rw [handleChatEvent_tracked_delta id prev p now hid hd]
  by_cases hlt : strLen prev < strLen (fullContentOf p)
  · rw [if_pos hlt]
    refine ⟨fun hle => absurd hlt (by omega), ?_⟩
    show strLen prev ≤ strLen (fullContentOf p)
    omega
  · rw [if_neg hlt]
    exact ⟨fun _ => ⟨rfl, rfl⟩, le_refl _⟩

/-- C10 witness: a repeated cumulative text "Hel" on a tracked run emits
nothing and changes nothing. -/
theorem delta_regression_ignored_witness :
    chunkTextsOf (handleChatEvent ⟨some "r1", "Hel"⟩ (deltaPayload "r1" "Hel") 0).2 = [] ∧
    (handleChatEvent ⟨some "r1", "Hel"⟩ (deltaPayload "r1" "Hel") 0).1 = ⟨some "r1", "Hel"⟩ :=
  (delta_regression_ignored "r1" "Hel" (deltaPayload "r1" "Hel") 0 (by decide) rfl rfl).1
    (by decide)

theorem strAppend_assoc (a b c : String) : (a ++ b) ++ c = a ++ (b ++ c) := by
  apply strExt; simp [strData_append]

theorem strAppend_empty (a : String) : a ++ "" = a := by
  apply strExt
  rw [strData_append]
  simp [show ("" : String).data = [] from rfl]

theorem strJoin_cons (x : String) (xs : List String) :
    strJoin (x :: xs) = x ++ strJoin xs := by
  apply strExt; simp [strJoin, strData_append]

theorem strJoin_append (xs ys : List String) :
    strJoin (xs ++ ys) = strJoin xs ++ strJoin ys := by
  apply strExt; simp [strJoin, strData_append]

theorem chunkTextsOf_append (a b : List StreamEmission) :
    chunkTextsOf (a ++ b) = chunkTextsOf a ++ chunkTextsOf b := by
  simp [chunkTextsOf]

theorem fullContentOf_deltaPayload (id t : String) :
    fullContentOf (deltaPayload id t) = t := by
  apply strExt; simp [fullContentOf, deltaPayload, strJoin]

/-- The second string extends the first: the first is an initial segment of
the second (the append-only streaming assumption of the spec). -/
def strGrowsTo (a b : String) : Prop := b.data.take a.data.length = a.data

instance (a b : String) : Decidable (strGrowsTo a b) :=
  inferInstanceAs (Decidable (_ = _))

theorem strJoin_singleton (x : String) : strJoin [x] = x := by
  apply strExt; simp [strJoin]

theorem strJoin_nil : strJoin [] = "" := by
  apply strExt; rfl

/-- One tracked delta step: the state moves to the new cumulative text and the
old text plus the emitted chunks reconstitutes the new text, provided the new
text extends the old one. -/
theorem tracked_delta_grows (id l t : String) (now : Nat) (hid : id ≠ "")
    (hext : strGrowsTo l t) :
    (handleChatEvent ⟨some id, l⟩ (deltaPayload id t) now).1 = ⟨some id, t⟩ ∧
    l ++ strJoin (chunkTextsOf (handleChatEvent ⟨some id, l⟩ (deltaPayload id t) now).2) = t := by
  have hlen : strLen l ≤ strLen t := by
    have := congrArg List.length hext
    simp only [List.length_take] at this
    simp only [strLen]
    omega
  have hstep := handleChatEvent_tracked_delta id l (deltaPayload id t) now hid rfl
  rw [fullContentOf_deltaPayload] at hstep
  by_cases hlt : strLen l < strLen t
  · rw [if_pos hlt] at hstep
    have hrecon : l ++ strDrop t (strLen l) = t := by
      apply strExt
      rw [strData_append]
      calc l.data ++ (strDrop t (strLen l)).data
          = t.data.take l.data.length ++ t.data.drop l.data.length := by
            rw [hext]; rfl
        _ = t.data := List.take_append_drop _ _
    rw [hstep]
    exact ⟨rfl, by simpa [chunkTextsOf, strJoin_singleton] using hrecon⟩
  · have heq : l = t := by
      have hlen2 : strLen l = strLen t := by omega
      apply strExt
      rw [← hext]
      simp only [strLen] at hlen2
      rw [hlen2, List.take_length]
    subst heq
    rw [if_neg hlt] at hstep
    rw [hstep]
    refine ⟨rfl, ?_⟩
    show l ++ strJoin (chunkTextsOf []) = l
    rw [show chunkTextsOf [] = [] from rfl, strJoin_nil]
    exact strAppend_empty l

/-- Induction along a chain of extending delta texts on a tracked run. -/
theorem runDeltaTexts_tracked (id : String) (hid : id ≠ "") (now : Nat) :
    ∀ (texts : List String) (l : String), List.Chain' strGrowsTo (l :: texts) →
      (runDeltaTexts ⟨some id, l⟩ id texts now).1 = ⟨some id, texts.getLastD l⟩ ∧
      l ++ strJoin (chunkTextsOf (runDeltaTexts ⟨some id, l⟩ id texts now).2)
        = texts.getLastD l := by
  intro texts
  induction texts with
  | nil =>
    intro l _
    refine ⟨rfl, ?_⟩
    show l ++ strJoin (chunkTextsOf []) = l
    rw [show chunkTextsOf [] = [] from rfl, strJoin_nil]
    exact strAppend_empty l
  | cons t ts ih =>
    intro l hch
    have hext : strGrowsTo l t := (List.chain'_cons.mp hch).1
    have hch2 : List.Chain' strGrowsTo (t :: ts) := (List.chain'_cons.mp hch).2
    have hstep := tracked_delta_grows id l t now hid hext
    have ihh := ih t hch2
    simp only [runDeltaTexts, hstep.1]
    refine ⟨by rw [ihh.1, List.getLastD_cons], ?_⟩
    rw [chunkTextsOf_append, strJoin_append, ← strAppend_assoc, hstep.2, ihh.2,
      List.getLastD_cons]

/-- First delta of a run from the untracked initial state: the run becomes
tracked with the cumulative text, and the chunks emitted join to it. -/
theorem first_delta_from_initial (id t : String) (now : Nat) (hid : id ≠ "") :
    (handleChatEvent initialStreamState (deltaPayload id t) now).1 = ⟨some id, t⟩ ∧
    strJoin (chunkTextsOf (handleChatEvent initialStreamState (deltaPayload id t) now).2)
      = t := by
  have hstart : chatStartStep initialStreamState (deltaPayload id t).state
      (messageIdOf (deltaPayload id t).runId) =
      (⟨some id, ""⟩, [StreamEmission.streamStart id]) := by
    simp [chatStartStep, initialStreamState, optStrTruthy, deltaPayload, messageIdOf, hid]
  have htail := tracked_delta_grows id "" t now hid
    (by simp [strGrowsTo, show ("" : String).data = [] from rfl])
  have hstart2 : chatStartStep ⟨some id, ""⟩ (deltaPayload id t).state
      (messageIdOf (deltaPayload id t).runId) = (⟨some id, ""⟩, []) := by
    simp [chatStartStep, optStrTruthy, hid]
  have hmain : handleChatEvent initialStreamState (deltaPayload id t) now =
      ((handleChatEvent ⟨some id, ""⟩ (deltaPayload id t) now).1,
        StreamEmission.streamStart id ::
          (handleChatEvent ⟨some id, ""⟩ (deltaPayload id t) now).2) := by
    simp only [handleChatEvent, hstart, hstart2]
    simp [chatFinalStep, deltaPayload]
  rw [hmain]
  refine ⟨htail.1, ?_⟩
  have : chunkTextsOf (StreamEmission.streamStart id ::
      (handleChatEvent ⟨some id, ""⟩ (deltaPayload id t) now).2) =
      chunkTextsOf (handleChatEvent ⟨some id, ""⟩ (deltaPayload id t) now).2 := by
    simp [chunkTextsOf]
  rw [this]
  have h2 := htail.2
  rwa [show ("" : String) ++ strJoin (chunkTextsOf (handleChatEvent ⟨some id, ""⟩ (deltaPayload id t) now).2) = strJoin (chunkTextsOf (handleChatEvent ⟨some id, ""⟩ (deltaPayload id t) now).2) from by
    apply strExt; rw [strData_append]; simp [show ("" : String).data = [] from rfl]] at h2

/-- C3 counterexample: the delta sequence "ab" then "xyz" has non-decreasing
(indeed strictly increasing) cumulative text lengths, yet the emitted chunks
"ab" and "z" concatenate to "abz", not to the final cumulative text "xyz"
(the diffing is purely length-based). -/
theorem chunk_concat_counterexample :
    strLen "ab" ≤ strLen "xyz" ∧
    strJoin (chunkTextsOf (runDeltaTexts initialStreamState "r1" ["ab", "xyz"] 0).2)
      = "abz" ∧
    ("abz" : String) ≠ "xyz" := by decide

/-- C3 amended: for every sequence of delta events on one run, starting from
the empty-string baseline, in which each cumulative text extends the previous
one as a string (the append-only case, which also makes the lengths
non-decreasing), the concatenation of all emitted stream-chunk texts equals
the final cumulative text. -/
theorem chunk_concat_eq_final (id : String) (texts : List String) (now : Nat)
    (hid : id ≠ "") (hch : List.Chain' strGrowsTo texts) :
    strJoin (chunkTextsOf (runDeltaTexts initialStreamState id texts now).2)
      = texts.getLastD "" := by
  cases texts with
  | nil =>
    rw [show (runDeltaTexts initialStreamState id [] now).2 = [] from rfl,
      show chunkTextsOf [] = [] from rfl, strJoin_nil]
    rfl
  | cons t ts =>
    have hfirst := first_delta_from_initial id t now hid
    have haux := runDeltaTexts_tracked id hid now ts t hch
    simp only [runDeltaTexts, hfirst.1]
    rw [chunkTextsOf_append, strJoin_append, hfirst.2, haux.2, List.getLastD_cons]

/-- C3 amended witness: the append-only sequence "Hel", "Hello" reassembles to
"Hello". -/
theorem chunk_concat_eq_final_witness :
    strJoin (chunkTextsOf (runDeltaTexts initialStreamState "r1" ["Hel", "Hello"] 0).2)
      = "Hello" :=
  chunk_concat_eq_final "r1" ["Hel", "Hello"] 0 (by decide)
    (List.chain'_cons.mpr ⟨by decide, List.chain'_singleton _⟩)

/-! ## Error classification (client.ts classifyErrorCode and createError,
lines 689-720)

A server error payload carries a raw code and message (both required strings
in the protocol types); the whole error object of a response frame is
optional.  Classification scans the lowercased message before consulting the
raw code, in the order of the source. -/

structure ErrorPayload where
  code : String
  message : String
deriving DecidableEq, Repr

inductive OpenClawErrorCode where
  | AUTH_FAILED
  | INVALID_REQUEST
  | PAIRING_REQUIRED
  | DEVICE_AUTH_UNSUPPORTED
  | SCOPE_MISSING_WRITE
  | UNKNOWN
deriving DecidableEq, Repr

/-- error?.message coerced to a string, with missing error giving "". -/
def errMessageOf (error : Option ErrorPayload) : String :=
  match error with
  | some e => e.message
  | none => ""

def classifyErrorCode (error : Option ErrorPayload) : OpenClawErrorCode :=
  let code := error.map (fun e => e.code)
  let message := strLower (errMessageOf error)
  if hasSub message "missing scope" = true ∧ hasSub message "operator.write" = true then
    OpenClawErrorCode.SCOPE_MISSING_WRITE
  else if hasSub message "pairing" = true then
    OpenClawErrorCode.PAIRING_REQUIRED
  else if code = some "AUTH_FAILED" then
    OpenClawErrorCode.AUTH_FAILED
  else if code = some "INVALID_REQUEST" then
    OpenClawErrorCode.INVALID_REQUEST
  else if code = some "PAIRING_REQUIRED" then
    OpenClawErrorCode.PAIRING_REQUIRED
  else
    OpenClawErrorCode.UNKNOWN

/-- The constructed client error: classified kind plus the raw code, and the
raw message unless it is absent or empty (js falsy), in which case the
call-site fallback text is used. -/
structure OpenClawClientError where
  message : String
  code : OpenClawErrorCode
  rawCode : Option String
deriving DecidableEq, Repr

def createError (error : Option ErrorPayload) (fallback : String) : OpenClawClientError :=
  { message :=
      if optStrTruthy (error.map (fun e => e.message)) = true then
        (error.map (fun e => e.message)).getD ""
      else fallback,
    code := classifyErrorCode error,
    rawCode := error.map (fun e => e.code) }

/-- C6 counterexample: a message that mentions "pairing" but also matches the
missing-scope scan classifies as SCOPE_MISSING_WRITE, not PAIRING_REQUIRED,
because the scope scan runs first; and a present-but-empty server message is
not preserved in the constructed error, which carries the fallback text
instead. -/
theorem classify_counterexample :
    classifyErrorCode (some ⟨"X", "pairing rejected: missing scope: operator.write"⟩)
        ≠ OpenClawErrorCode.PAIRING_REQUIRED ∧
    (createError (some ⟨"SOME_CODE", ""⟩) "Connection failed").message ≠ "" := by decide

/-- C6 amended: the message "missing scope: operator.write" classifies as
SCOPE_MISSING_WRITE (never AUTH_FAILED) whatever the raw code; a message
mentioning "pairing" (case-insensitively) classifies as PAIRING_REQUIRED
provided it does not also match the missing-scope/operator.write scan, which
takes precedence; the constructed client error always preserves the raw code,
and preserves the raw message whenever the message is non-empty (an absent or
empty message is replaced by the call-site fallback). -/
theorem classify_amended :
    (∀ c : String,
      classifyErrorCode (some ⟨c, "missing scope: operator.write"⟩)
          = OpenClawErrorCode.SCOPE_MISSING_WRITE ∧
      classifyErrorCode (some ⟨c, "missing scope: operator.write"⟩)
          ≠ OpenClawErrorCode.AUTH_FAILED) ∧
    (∀ error : Option ErrorPayload,
      hasSub (strLower (errMessageOf error)) "pairing" = true →
      ¬(hasSub (strLower (errMessageOf error)) "missing scope" = true ∧
          hasSub (strLower (errMessageOf error)) "operator.write" = true) →
      classifyErrorCode error = OpenClawErrorCode.PAIRING_REQUIRED) ∧
    (∀ (error : Option ErrorPayload) (fallback : String),
      (createError error fallback).rawCode = error.map (fun e => e.code)) ∧
    (∀ (e : ErrorPayload) (fallback : String), e.message ≠ "" →
      (createError (some e) fallback).message = e.message) := by
  refine ⟨fun c => ?_, fun error hp hns => ?_, fun error fallback => rfl,
    fun e fallback hm => ?_⟩
  · have h1 : hasSub (strLower "missing scope: operator.write") "missing scope" = true := by
      decide
    have h2 : hasSub (strLower "missing scope: operator.write") "operator.write" = true := by
      decide
    constructor <;> simp [classifyErrorCode, errMessageOf, h1, h2]
  · unfold classifyErrorCode
    rw [if_neg hns, if_pos hp]
  · unfold createError
    simp [optStrTruthy, hm]

/-- C6 amended witness: the plain pairing message, a preserved raw code and a
preserved non-empty raw message, at concrete inputs. -/
theorem classify_amended_witness :
    classifyErrorCode (some ⟨"Y", "Pairing required, visit dashboard"⟩)
        = OpenClawErrorCode.PAIRING_REQUIRED ∧
    (createError (some ⟨"AUTH_FAILED", "bad token"⟩) "Connection failed").rawCode
        = some "AUTH_FAILED" ∧
    (createError (some ⟨"AUTH_FAILED", "bad token"⟩) "Connection failed").message
        = "bad token" :=
  ⟨classify_amended.2.1 (some ⟨"Y", "Pairing required, visit dashboard"⟩)
      (by decide) (by decide),
    classify_amended.2.2.1 (some ⟨"AUTH_FAILED", "bad token"⟩) "Connection failed",
    classify_amended.2.2.2 ⟨"AUTH_FAILED", "bad token"⟩ "Connection failed" (by decide)⟩

/-! ## Connection state machine, correlator and token-mismatch retry
(client.ts lines 160-167, 313-356, 489-520, 564-613, 659-687)

One record models the mutable fields of the client instance that these
handlers touch: the connection state and reconnect-attempt counter
(this.state), the mutable reconnect option and the configured maximum
(options.reconnect / options.maxReconnectAttempts, -1 meaning unlimited),
whether a reconnect timer is pending, the ids of the outstanding correlated
requests (pendingRequests), the resolved session key and in-memory device
token, the two token-mismatch flags, and the device-auth provider view
(whether it is supported, and the token it has persisted). -/

inductive ConnState where
  | disconnected
  | connecting
  | authenticating
  | connected
  | reconnecting
  | errorState
deriving DecidableEq, Repr

structure ClientModel where
  connectionState : ConnState
  reconnectAttempts : Nat
  reconnectOpt : Bool
  maxReconnectAttempts : Int
  reconnectTimer : Bool
  pendingRequests : List String
  sessionKey : Option String
  deviceToken : Option String
  hasRetriedTokenMismatch : Bool
  forceSharedAuthOnce : Bool
  providerSupported : Bool
  persistedDeviceToken : Option String
deriving DecidableEq, Repr

inductive ClientEffect where
  | rejectPending (id : String) (reason : String)
  | emitDisconnected (reason : Option String)
  | emitReconnecting (attempt : Nat)
deriving DecidableEq, Repr

/-- Lines 585-588. -/
def shouldReconnect (s : ClientModel) : Bool :=
  s.maxReconnectAttempts = -1 || (s.reconnectAttempts : Int) < s.maxReconnectAttempts

/-- Lines 608-613. -/
def clearReconnectTimer (s : ClientModel) : ClientModel :=
  { s with reconnectTimer := false }

/-- Lines 590-606: clear any pending timer, bump the attempt counter, move to
reconnecting and arm the timer. -/
def scheduleReconnect (s : ClientModel) : ClientModel × List ClientEffect :=
  let s0 := clearReconnectTimer s
  let attempt := s0.reconnectAttempts + 1
  ({ s0 with
      connectionState := ConnState.reconnecting
      reconnectAttempts := attempt
      reconnectTimer := true },
    [ClientEffect.emitReconnecting attempt])

/-- Lines 564-583: reject every pending request with a disconnected error and
clear the pending map; emit disconnected if the socket had been connected;
then either schedule a reconnect or settle to disconnected. -/
def handleDisconnect (s : ClientModel) (reason : Option String) :
    ClientModel × List ClientEffect :=
  let wasConnected := s.connectionState = ConnState.connected
  let rejections := s.pendingRequests.map
    (fun id => ClientEffect.rejectPending id "Disconnected")
  let s0 := { s with pendingRequests := [] }
  let discEff := if wasConnected then [ClientEffect.emitDisconnected reason] else []
  if s0.reconnectOpt = true ∧ shouldReconnect s0 = true then
    let r := scheduleReconnect s0
    (r.1, rejections ++ discEff ++ r.2)
  else
    ({ s0 with connectionState := ConnState.disconnected }, rejections ++ discEff)

/-- Lines 160-167: a manual disconnect disables auto-reconnect for the rest of
the instance lifetime, clears any pending reconnect timer, closes the socket
and settles to disconnected. -/
def clientManualDisconnect (s : ClientModel) : ClientModel × List ClientEffect :=
  let s0 := { s with reconnectOpt := false }
  let s1 := clearReconnectTimer s0
  ({ s1 with connectionState := ConnState.disconnected },
    [ClientEffect.emitDisconnected (some "Client disconnect")])

/-- Lines 99-113: connect() returns at once when already connected, otherwise
moves to connecting (device-auth support assumed available here; an
unsupported provider instead yields the error state, which likewise is not
connecting). -/
def connectStart (s : ClientModel) : ClientModel :=
  if s.connectionState = ConnState.connected then s
  else { s with connectionState := ConnState.connecting }

/-- Lines 599-605: the armed reconnect timer firing calls connect(); a timer
that is not pending does nothing. -/
def reconnectTimerFire (s : ClientModel) : ClientModel :=
  if s.reconnectTimer = true then connectStart (clearReconnectTimer s) else s

inductive ExternalEvent where
  | socketClosed (reason : Option String)
  | timerFired
deriving DecidableEq, Repr

def stepEvent (s : ClientModel) (e : ExternalEvent) : ClientModel :=
  match e with
  | ExternalEvent.socketClosed r => (handleDisconnect s r).1
  | ExternalEvent.timerFired => reconnectTimerFire s

def runEvents (s : ClientModel) (es : List ExternalEvent) : ClientModel :=
  es.foldl stepEvent s

/-- Lines 659-674: the message scan part of the retry decision — lowercased
error message, empty message never retries, otherwise any of the three
token-mismatch phrases. -/
def isTokenMismatchMessage (error : Option ErrorPayload) : Bool :=
  let message := strLower (errMessageOf error)
  if message = "" then false
  else hasSub message "gateway token mismatch" ||
    hasSub message "device token mismatch" ||
    hasSub message "token mismatch"

/-- Lines 659-674: never retry once the per-attempt flag is set. -/
def shouldRetryAfterTokenMismatch (s : ClientModel) (error : Option ErrorPayload) : Bool :=
  if s.hasRetriedTokenMismatch = true then false
  else isTokenMismatchMessage error

/-- Lines 676-687: mark the retry as consumed, force shared-credential auth
for the next connect request, drop the in-memory device token and clear the
persisted one when the provider is supported, then resend the handshake. -/
def retryConnectAfterTokenMismatch (s : ClientModel) : ClientModel :=
  { s with
      hasRetriedTokenMismatch := true
      forceSharedAuthOnce := true
      deviceToken := none
      persistedDeviceToken :=
        if s.providerSupported = true then none else s.persistedDeviceToken }

/-- What the connect-attempt response handler does with a failed response that
matches no pending request (lines 341-355): retry the handshake once on a
token mismatch, otherwise reject the connect promise. -/
inductive ConnectErrorAction where
  | retriedHandshake
  | rejectedConnect (err : OpenClawClientError)
deriving DecidableEq, Repr

def processConnectError (s : ClientModel) (error : Option ErrorPayload) :
    ClientModel × ConnectErrorAction :=
  if shouldRetryAfterTokenMismatch s error = true then
    (retryConnectAfterTokenMismatch s, ConnectErrorAction.retriedHandshake)
  else
    (s, ConnectErrorAction.rejectedConnect (createError error "Connection failed"))

def processConnectErrors (s : ClientModel) :
    List (Option ErrorPayload) → ClientModel × List ConnectErrorAction
  | [] => (s, [])
  | e :: es =>
    let r := processConnectError s e
    let rest := processConnectErrors r.1 es
    (rest.1, r.2 :: rest.2)

def countRetries (acts : List ConnectErrorAction) : Nat :=
  (acts.filter (fun a => a = ConnectErrorAction.retriedHandshake)).length

theorem retry_flag_sticky (s : ClientModel) (e : Option ErrorPayload)
    (h : s.hasRetriedTokenMismatch = true) :
    processConnectError s e = (s, ConnectErrorAction.rejectedConnect
      (createError e "Connection failed")) := by
  simp [processConnectError, shouldRetryAfterTokenMismatch, h]

theorem countRetries_zero_of_retried (es : List (Option ErrorPayload)) :
    ∀ s : ClientModel, s.hasRetriedTokenMismatch = true →
      countRetries (processConnectErrors s es).2 = 0 := by
  induction es with
  | nil => intro s _; rfl
  | cons e es ih =>
    intro s h
    simp only [processConnectErrors, retry_flag_sticky s e h]
    have := ih s h
    simp only [countRetries, List.filter] at this ⊢
    simp [this]

theorem countRetries_le_one (es : List (Option ErrorPayload)) :
    ∀ s : ClientModel, countRetries (processConnectErrors s es).2 ≤ 1 := by
  induction es with
  | nil => intro s; exact Nat.zero_le 1
  | cons e es ih =>
    intro s
    by_cases hr : shouldRetryAfterTokenMismatch s e = true
    · have hset : (retryConnectAfterTokenMismatch s).hasRetriedTokenMismatch = true := rfl
      have hz := countRetries_zero_of_retried es (retryConnectAfterTokenMismatch s) hset
      simp only [processConnectErrors, processConnectError, hr, if_pos]
      simp only [countRetries, List.filter] at hz ⊢
      simp [hz]
    · simp only [processConnectErrors, processConnectError, hr, if_neg, if_false]
      have := ih s
      simp only [countRetries, List.filter] at this ⊢
      simpa using this

/-- C1: in one connect attempt a token-mismatch response that arrives with the
retry flag still clear triggers the single handshake retry, clearing the
in-memory device token, forcing shared-credential auth and clearing the
persisted device token when the provider is supported; a second mismatch
response in the same attempt rejects the connect promise instead, and over any
sequence of failed connect responses at most one retry is ever issued. -/
theorem token_mismatch_single_retry (s : ClientModel) (e1 e2 : Option ErrorPayload)
    (hfresh : s.hasRetriedTokenMismatch = false)
    (hm1 : isTokenMismatchMessage e1 = true)
    (hm2 : isTokenMismatchMessage e2 = true) :
    (processConnectError s e1).2 = ConnectErrorAction.retriedHandshake ∧
    (processConnectError s e1).1.deviceToken = none ∧
    (processConnectError s e1).1.forceSharedAuthOnce = true ∧
    (s.providerSupported = true →
      (processConnectError s e1).1.persistedDeviceToken = none) ∧
    (processConnectError (processConnectError s e1).1 e2).2 =
      ConnectErrorAction.rejectedConnect (createError e2 "Connection failed") ∧
    (∀ es : List (Option ErrorPayload),
      countRetries (processConnectErrors s es).2 ≤ 1) := by
  have hr1 : shouldRetryAfterTokenMismatch s e1 = true := by
    simp [shouldRetryAfterTokenMismatch, hfresh, hm1]
  have hstep : processConnectError s e1 =
      (retryConnectAfterTokenMismatch s, ConnectErrorAction.retriedHandshake) := by
    simp [processConnectError, hr1]
  refine ⟨by rw [hstep], ?_, ?_, fun hsup => ?_, ?_,
    fun es => countRetries_le_one es s⟩
  · rw [hstep]
    show (retryConnectAfterTokenMismatch s).deviceToken = none
    rfl
  · rw [hstep]
    show (retryConnectAfterTokenMismatch s).forceSharedAuthOnce = true
    rfl
  · rw [hstep]
    show (retryConnectAfterTokenMismatch s).persistedDeviceToken = none
    simp [retryConnectAfterTokenMismatch, hsup]
  · rw [hstep]
    show (processConnectError (retryConnectAfterTokenMismatch s) e2).2 =
      ConnectErrorAction.rejectedConnect (createError e2 "Connection failed")
    rw [retry_flag_sticky (retryConnectAfterTokenMismatch s) e2 rfl]

/-- C1 witness: a fresh attempt hit by two "device token mismatch" failures
retries exactly once and then rejects. -/
theorem token_mismatch_single_retry_witness :
    (processConnectError
        ⟨ConnState.authenticating, 0, true, 10, false, [], none, some "tok",
          false, false, true, some "tok"⟩
        (some ⟨"AUTH_FAILED", "device token mismatch"⟩)).2 =
      ConnectErrorAction.retriedHandshake ∧
    (processConnectError
        (processConnectError
          ⟨ConnState.authenticating, 0, true, 10, false, [], none, some "tok",
            false, false, true, some "tok"⟩
          (some ⟨"AUTH_FAILED", "device token mismatch"⟩)).1
        (some ⟨"AUTH_FAILED", "device token mismatch"⟩)).2 =
      ConnectErrorAction.rejectedConnect
        (createError (some ⟨"AUTH_FAILED", "device token mismatch"⟩)
          "Connection failed") := by
  have h := token_mismatch_single_retry
    ⟨ConnState.authenticating, 0, true, 10, false, [], none, some "tok",
      false, false, true, some "tok"⟩
    (some ⟨"AUTH_FAILED", "device token mismatch"⟩)
    (some ⟨"AUTH_FAILED", "device token mismatch"⟩)
    rfl (by decide) (by decide)
  exact ⟨h.1, h.2.2.2.2.1⟩

/-- The correlator resolves a response only against a currently pending id
(lines 328-339); this is the membership test on the pending map. -/
def pendingLookup (s : ClientModel) (id : String) : Bool :=
  s.pendingRequests.contains id

/-- C5: whenever the socket closes, every pending request is rejected with the
disconnected error, the pending map becomes empty, and afterwards no id —
in particular none registered before the close — is found by the correlator,
so no such request can be resolved after a reconnect. -/
theorem disconnect_fails_all_pending (s : ClientModel) (reason : Option String) :
    (∀ id ∈ s.pendingRequests,
      ClientEffect.rejectPending id "Disconnected" ∈ (handleDisconnect s reason).2) ∧
    (handleDisconnect s reason).1.pendingRequests = [] ∧
    (∀ id : String, pendingLookup (handleDisconnect s reason).1 id = false) := by
  simp only [handleDisconnect]
  split_ifs <;>
  · refine ⟨fun id hid => ?_, rfl, fun id => rfl⟩
    have hm : ClientEffect.rejectPending id "Disconnected" ∈
        List.map (fun i => ClientEffect.rejectPending i "Disconnected")
          s.pendingRequests :=
      List.mem_map.mpr ⟨id, hid, rfl⟩
    simp [List.mem_append, hm]

/-- C5 witness: two concrete pending requests are both rejected and the map is
emptied on a close. -/
theorem disconnect_fails_all_pending_witness :
    ClientEffect.rejectPending "17-1" "Disconnected" ∈
      (handleDisconnect
        ⟨ConnState.connected, 0, true, 10, false, ["17-1", "17-2"], none, none,
          false, false, true, none⟩ (some "gone")).2 ∧
    (handleDisconnect
        ⟨ConnState.connected, 0, true, 10, false, ["17-1", "17-2"], none, none,
          false, false, true, none⟩ (some "gone")).1.pendingRequests = [] := by
  have h := disconnect_fails_all_pending
    ⟨ConnState.connected, 0, true, 10, false, ["17-1", "17-2"], none, none,
      false, false, true, none⟩ (some "gone")
  exact ⟨h.1 "17-1" (by decide), h.2.1⟩

/-! ## Handshake success and chat.send (client.ts lines 191-202, 304-325) -/

/-- The parts of a hello-ok payload the success handler reads: the optionally
pushed device token (payload.auth?.deviceToken) and the default session key
(payload.snapshot?.sessionDefaults?.mainSessionKey). -/
structure HelloOkInfo where
  authDeviceToken : Option String
  mainSessionKey : Option String
deriving DecidableEq, Repr

/-- Lines 304-325: persist a pushed device token (when the provider is
supported), adopt the default session key when none is resolved yet, reset the
token-mismatch flags, mark connected and zero the attempt counter. -/
def handleHelloOk (s : ClientModel) (p : HelloOkInfo) : ClientModel :=
  let s1 :=
    if optStrTruthy p.authDeviceToken = true then
      { s with
          deviceToken := p.authDeviceToken
          persistedDeviceToken :=
            if s.providerSupported = true then p.authDeviceToken
            else s.persistedDeviceToken }
    else s
  let s2 :=
    if optStrTruthy s1.sessionKey = false ∧ optStrTruthy p.mainSessionKey = true then
      { s1 with sessionKey := p.mainSessionKey }
    else s1
  { s2 with
      hasRetriedTokenMismatch := false
      forceSharedAuthOnce := false
      connectionState := ConnState.connected
      reconnectAttempts := 0 }

structure ChatSendParams where
  sessionKey : String
  message : String
  idempotencyKey : String
deriving DecidableEq, Repr

/-- The idempotency key built at line 198 from the clock and a random
base-36 suffix. -/
def mkIdempotencyKey (now : Nat) (rand : String) : String :=
  Nat.repr now ++ "-" ++ rand

/-- Lines 191-202 with the precondition of request() at lines 522-524: send
fails before building any frame when no session key is resolved (js falsy
check) or when not connected; otherwise it produces the chat.send parameters
carrying the resolved session key and a fresh idempotency key. -/
def send (s : ClientModel) (content : String) (now : Nat) (rand : String) :
    Except String ChatSendParams :=
  if optStrTruthy s.sessionKey = false then
    Except.error "No session key available. Set sessionKey in options or wait for connection."
  else if s.connectionState ≠ ConnState.connected then
    Except.error "Not connected"
  else
    Except.ok
      { sessionKey := s.sessionKey.getD ""
        message := content
        idempotencyKey := mkIdempotencyKey now rand }

/-- The chat.send frames put on the wire by a send call: one request frame on
success, none on failure. -/
def sentChatFrames (r : Except String ChatSendParams) : List (String × ChatSendParams) :=
  match r with
  | Except.ok p => [("chat.send", p)]
  | Except.error _ => []

theorem mkIdempotencyKey_ne_empty (now : Nat) (rand : String) :
    mkIdempotencyKey now rand ≠ "" := by
  intro h
  have hd := congrArg String.data h
  rw [show (mkIdempotencyKey now rand).data
      = (Nat.repr now).data ++ ("-" ++ rand).data from by
    simp [mkIdempotencyKey, strData_append]] at hd
  have h2 : ("-" ++ rand).data = [] := (List.append_eq_nil.mp hd).2
  rw [strData_append] at h2
  exact absurd (List.append_eq_nil.mp h2).1 (by decide)

/-- C7: when no session key was configured and the hello-ok payload carries
session key s1, every later send(content) yields a chat.send request whose
params carry sessionKey s1 and a non-empty idempotency key; and whenever no
session key is available at all, send fails immediately and no frame is
sent. -/
theorem send_uses_handshake_session_key (s : ClientModel) (p : HelloOkInfo)
    (content rand : String) (now : Nat)
    (hnokey : s.sessionKey = none) (hkey : p.mainSessionKey = some "s1") :
    (handleHelloOk s p).sessionKey = some "s1" ∧
    send (handleHelloOk s p) content now rand =
      Except.ok ⟨"s1", content, mkIdempotencyKey now rand⟩ ∧
    mkIdempotencyKey now rand ≠ "" ∧
    (∀ (s2 : ClientModel) (c2 r2 : String) (n2 : Nat), s2.sessionKey = none →
      send s2 c2 n2 r2 = Except.error
        "No session key available. Set sessionKey in options or wait for connection." ∧
      sentChatFrames (send s2 c2 n2 r2) = []) := by
  have hsk : (handleHelloOk s p).sessionKey = some "s1" := by
    simp only [handleHelloOk]
    split_ifs with h1 h2 h3 <;> simp_all [optStrTruthy]
  have hconn : (handleHelloOk s p).connectionState = ConnState.connected := rfl
  refine ⟨hsk, ?_, mkIdempotencyKey_ne_empty now rand, fun s2 c2 r2 n2 hnone => ?_⟩
  · rw [send, hsk, hconn]
    simp [optStrTruthy]
  · rw [send, hnone]
    have : optStrTruthy (none : Option String) = false := rfl
    rw [this, if_pos rfl]
    exact ⟨rfl, rfl⟩

/-- C7 witness: a concrete pre-handshake state learning session key s1 and
then sending "hi". -/
theorem send_uses_handshake_session_key_witness :
    send (handleHelloOk
        ⟨ConnState.authenticating, 0, true, 10, false, [], none, none,
          false, false, true, none⟩
        ⟨none, some "s1"⟩) "hi" 1700000000000 "k3jq9z" =
      Except.ok ⟨"s1", "hi", mkIdempotencyKey 1700000000000 "k3jq9z"⟩ ∧
    mkIdempotencyKey 1700000000000 "k3jq9z" ≠ "" :=
  let h := send_uses_handshake_session_key
    ⟨ConnState.authenticating, 0, true, 10, false, [], none, none,
      false, false, true, none⟩
    ⟨none, some "s1"⟩ "hi" "k3jq9z" 1700000000000 rfl rfl
  ⟨h.2.1, h.2.2.1⟩

/-! ## Reconnect backoff loop (C8) and manual disconnect (C9)

A failed reconnect attempt, as seen by the state machine, is the armed timer
firing (which re-enters connect and moves to connecting) followed by the
socket closing again without a successful handshake. -/

def failedAttemptRound (s : ClientModel) : ClientModel :=
  (handleDisconnect (reconnectTimerFire s) none).1

def iterRounds (s : ClientModel) : Nat → ClientModel
  | 0 => s
  | n + 1 => failedAttemptRound (iterRounds s n)

/-- The client is waiting out the backoff interval: reconnecting with the
timer armed, auto-reconnect on, a given attempt count and maximum. -/
def ReconPhase (s : ClientModel) (N a : Nat) : Prop :=
  s.connectionState = ConnState.reconnecting ∧ s.reconnectAttempts = a ∧
  s.reconnectTimer = true ∧ s.reconnectOpt = true ∧
  s.maxReconnectAttempts = (N : Int)

/-- The client has settled: disconnected, no timer armed, and the attempt
budget exhausted so no close event can re-arm it. -/
def SinkPhase (s : ClientModel) (N : Nat) : Prop :=
  s.connectionState = ConnState.disconnected ∧ s.reconnectTimer = false ∧
  s.maxReconnectAttempts = (N : Int) ∧ (N : Int) ≤ (s.reconnectAttempts : Int)

theorem recon_step {s : ClientModel} {N a : Nat} (h : ReconPhase s N a)
    (hlt : a < N) : ReconPhase (failedAttemptRound s) N (a + 1) := by
  obtain ⟨hc, ha, ht, ho, hm⟩ := h
  have hfire : reconnectTimerFire s =
      { s with reconnectTimer := false, connectionState := ConnState.connecting } := by
    simp [reconnectTimerFire, clearReconnectTimer, connectStart, ht, hc]
  have hsr : ((s.reconnectAttempts : Int) < s.maxReconnectAttempts) := by
    rw [ha, hm]; exact_mod_cast hlt
  unfold failedAttemptRound
  rw [hfire]
  simp only [handleDisconnect, scheduleReconnect, clearReconnectTimer, shouldReconnect]
  simp [ReconPhase, ho, ha, hm, hsr, hlt]

theorem sink_step {s : ClientModel} {N : Nat} (h : SinkPhase s N) :
    SinkPhase (failedAttemptRound s) N := by
  obtain ⟨hc, ht, hm, ha⟩ := h
  have hfire : reconnectTimerFire s = s := by
    simp [reconnectTimerFire, ht]
  have hne : s.maxReconnectAttempts ≠ -1 := by
    rw [hm]; omega
  have hnlt : ¬ ((s.reconnectAttempts : Int) < s.maxReconnectAttempts) := by
    rw [hm]; omega
  have hnn : ¬ (s.reconnectAttempts < N) := by
    intro hcon
    exact hnlt (by rw [hm]; exact_mod_cast hcon)
  have haN : N ≤ s.reconnectAttempts := Nat.le_of_not_lt hnn
  unfold failedAttemptRound
  rw [hfire]
  simp only [handleDisconnect, shouldReconnect]
  simp [SinkPhase, hc, ht, hm, hne, hnlt, ha, hnn, haN]

theorem recon_to_sink {s : ClientModel} {N : Nat} (h : ReconPhase s N N) :
    SinkPhase (failedAttemptRound s) N := by
  obtain ⟨hc, ha, ht, ho, hm⟩ := h
  have hfire : reconnectTimerFire s =
      { s with reconnectTimer := false, connectionState := ConnState.connecting } := by
    simp [reconnectTimerFire, clearReconnectTimer, connectStart, ht, hc]
  have hne : s.maxReconnectAttempts ≠ -1 := by
    rw [hm]; omega
  have hnlt : ¬ ((s.reconnectAttempts : Int) < s.maxReconnectAttempts) := by
    rw [ha, hm]; omega
  have hnn : ¬ (s.reconnectAttempts < N) := by rw [ha]; omega
  have haN : N ≤ s.reconnectAttempts := Nat.le_of_not_lt hnn
  unfold failedAttemptRound
  rw [hfire]
  simp only [handleDisconnect, shouldReconnect]
  simp [SinkPhase, hm, hne, hnlt, ha, hnn, haN]

theorem sink_iter {s : ClientModel} {N : Nat} (h : SinkPhase s N) :
    ∀ m, SinkPhase (iterRounds s m) N := by
  intro m
  induction m with
  | zero => exact h
  | succ m ih => exact sink_step ih

theorem iterRounds_add (s : ClientModel) (a b : Nat) :
    iterRounds s (a + b) = iterRounds (iterRounds s a) b := by
  induction b with
  | zero => rfl
  | succ b ih => rw [← Nat.add_assoc, iterRounds, iterRounds, ih]

/-- C8: a successful handshake always sets the connection state to connected
and resets the reconnect attempt counter to zero; and with a finite maximum of
N reconnect attempts, after the unexpected close each of the first N failed
reconnect attempts leaves the client reconnecting with the attempt counter
equal to the attempt number, while from the N-th failure on no further
reconnect is scheduled (the timer stays disarmed) and the state settles to
disconnected. -/
theorem handshake_resets_and_backoff_stops (s : ClientModel) (p : HelloOkInfo)
    (s0 : ClientModel) (N : Nat)
    (hmax : s0.maxReconnectAttempts = (N : Int))
    (hconn : s0.connectionState = ConnState.connected)
    (hatt : s0.reconnectAttempts = 0)
    (hopt : s0.reconnectOpt = true)
    (htimer : s0.reconnectTimer = false) :
    (handleHelloOk s p).connectionState = ConnState.connected ∧
    (handleHelloOk s p).reconnectAttempts = 0 ∧
    (∀ k, k < N →
      (iterRounds (handleDisconnect s0 none).1 k).connectionState
          = ConnState.reconnecting ∧
      (iterRounds (handleDisconnect s0 none).1 k).reconnectAttempts = k + 1) ∧
    (∀ m, (iterRounds (handleDisconnect s0 none).1 (N + m)).connectionState
          = ConnState.disconnected ∧
      (iterRounds (handleDisconnect s0 none).1 (N + m)).reconnectTimer = false) := by
  have hfirstPos : 0 < N → ReconPhase (handleDisconnect s0 none).1 N 1 := by
    intro h0
    have hsr : ((s0.reconnectAttempts : Int) < s0.maxReconnectAttempts) := by
      rw [hatt, hmax]; exact_mod_cast h0
    simp only [handleDisconnect, scheduleReconnect, clearReconnectTimer, shouldReconnect]
    simp [ReconPhase, hopt, hatt, hmax, hsr, h0, hconn]
  have hfirstZero : N = 0 → SinkPhase (handleDisconnect s0 none).1 N := by
    intro h0
    subst h0
    have hne : s0.maxReconnectAttempts ≠ -1 := by rw [hmax]; omega
    have hnlt : ¬ ((s0.reconnectAttempts : Int) < s0.maxReconnectAttempts) := by
      rw [hatt, hmax]; omega
    have hnn : ¬ (s0.reconnectAttempts < 0) := by omega
    simp only [handleDisconnect, shouldReconnect]
    simp [SinkPhase, hconn, htimer, hmax, hatt, hne, hnlt, hnn]
  have hrec : ∀ k, k < N →
      ReconPhase (iterRounds (handleDisconnect s0 none).1 k) N (k + 1) := by
    intro k
    induction k with
    | zero => intro h0; exact hfirstPos h0
    | succ k ih =>
      intro hk
      have hkN : k < N := by omega
      exact recon_step (ih hkN) hk
  have hsink : SinkPhase (iterRounds (handleDisconnect s0 none).1 N) N := by
    cases N with
    | zero => exact hfirstZero rfl
    | succ n => exact recon_to_sink (hrec n (by omega))
  refine ⟨rfl, rfl, fun k hk => ⟨(hrec k hk).1, (hrec k hk).2.1⟩, fun m => ?_⟩
  rw [iterRounds_add]
  exact ⟨(sink_iter hsink m).1, (sink_iter hsink m).2.1⟩

/-- C8 witness: with maxReconnectAttempts = 1, the first failed reconnect
attempt is scheduled and the second close settles to disconnected with no
timer armed; a hello-ok from any state yields connected with a zeroed attempt
counter. -/
theorem handshake_resets_and_backoff_stops_witness :
    (handleHelloOk
        ⟨ConnState.authenticating, 4, true, 1, false, [], none, none,
          false, false, true, none⟩ ⟨none, none⟩).connectionState
        = ConnState.connected ∧
    (handleHelloOk
        ⟨ConnState.authenticating, 4, true, 1, false, [], none, none,
          false, false, true, none⟩ ⟨none, none⟩).reconnectAttempts = 0 ∧
    (iterRounds (handleDisconnect
        ⟨ConnState.connected, 0, true, 1, false, [], none, none,
          false, false, true, none⟩ none).1 0).connectionState
        = ConnState.reconnecting ∧
    (iterRounds (handleDisconnect
        ⟨ConnState.connected, 0, true, 1, false, [], none, none,
          false, false, true, none⟩ none).1 (1 + 1)).connectionState
        = ConnState.disconnected ∧
    (iterRounds (handleDisconnect
        ⟨ConnState.connected, 0, true, 1, false, [], none, none,
          false, false, true, none⟩ none).1 (1 + 1)).reconnectTimer = false := by
  have h := handshake_resets_and_backoff_stops
    ⟨ConnState.authenticating, 4, true, 1, false, [], none, none,
      false, false, true, none⟩ ⟨none, none⟩
    ⟨ConnState.connected, 0, true, 1, false, [], none, none,
      false, false, true, none⟩ 1 rfl rfl rfl rfl rfl
  exact ⟨h.1, h.2.1, (h.2.2.1 0 (by omega)).1, (h.2.2.2 1).1, (h.2.2.2 1).2⟩

/-- After a manual disconnect: auto-reconnect off, no timer armed, and not in
the connecting state.  Preserved by every socket-close and timer event. -/
def NoReconnect (s : ClientModel) : Prop :=
  s.reconnectOpt = false ∧ s.reconnectTimer = false ∧
  s.connectionState ≠ ConnState.connecting

theorem noReconnect_step {s : ClientModel} (h : NoReconnect s) (e : ExternalEvent) :
    NoReconnect (stepEvent s e) := by
  obtain ⟨ho, ht, hc⟩ := h
  cases e with
  | socketClosed r =>
    have hcond : ¬ (({ s with pendingRequests := [] } : ClientModel).reconnectOpt = true ∧
        shouldReconnect { s with pendingRequests := [] } = true) := by
      intro hcon
      rw [show ({ s with pendingRequests := [] } : ClientModel).reconnectOpt
          = s.reconnectOpt from rfl, ho] at hcon
      exact Bool.false_ne_true hcon.1
    show NoReconnect (handleDisconnect s r).1
    simp only [handleDisconnect]
    rw [if_neg hcond]
    exact ⟨ho, ht, by simp [NoReconnect]⟩
  | timerFired =>
    show NoReconnect (reconnectTimerFire s)
    simp only [reconnectTimerFire, ht]
    exact ⟨ho, ht, hc⟩

theorem noReconnect_run {s : ClientModel} (h : NoReconnect s)
    (es : List ExternalEvent) : NoReconnect (runEvents s es) := by
  induction es generalizing s with
  | nil => exact h
  | cons e es ih => exact ih (noReconnect_step h e)

/-- C9: calling disconnect() while the client is reconnecting cancels the
pending reconnect timer, disables auto-reconnect for the rest of the instance
lifetime, and under any further socket-close or timer-fire events (that is,
until connect() is called again) the client never transitions to connecting
and no timer is ever re-armed. -/
theorem manual_disconnect_stops_reconnect (s : ClientModel)
    (hrec : s.connectionState = ConnState.reconnecting) :
    (clientManualDisconnect s).1.reconnectTimer = false ∧
    (clientManualDisconnect s).1.reconnectOpt = false ∧
    (clientManualDisconnect s).1.connectionState = ConnState.disconnected ∧
    (∀ es : List ExternalEvent,
      (runEvents (clientManualDisconnect s).1 es).connectionState
          ≠ ConnState.connecting ∧
      (runEvents (clientManualDisconnect s).1 es).reconnectOpt = false ∧
      (runEvents (clientManualDisconnect s).1 es).reconnectTimer = false) := by
  have hbase : NoReconnect (clientManualDisconnect s).1 := by
    refine ⟨rfl, rfl, ?_⟩
    simp [clientManualDisconnect, clearReconnectTimer]
  refine ⟨rfl, rfl, rfl, fun es => ?_⟩
  have h := noReconnect_run hbase es
  exact ⟨h.2.2, h.1, h.2.1⟩

/-- C9 witness: a reconnecting client with an armed timer, manually
disconnected, then hit by a timer fire and another close. -/
theorem manual_disconnect_stops_reconnect_witness :
    (clientManualDisconnect
      ⟨ConnState.reconnecting, 2, true, 10, true, [], none, none,
        false, false, true, none⟩).1.reconnectTimer = false ∧
    (runEvents (clientManualDisconnect
        ⟨ConnState.reconnecting, 2, true, 10, true, [], none, none,
          false, false, true, none⟩).1
      [ExternalEvent.timerFired, ExternalEvent.socketClosed none]).connectionState
        ≠ ConnState.connecting := by
  have h := manual_disconnect_stops_reconnect
    ⟨ConnState.reconnecting, 2, true, 10, true, [], none, none,
      false, false, true, none⟩ rfl
  exact ⟨h.1, (h.2.2.2 [ExternalEvent.timerFired, ExternalEvent.socketClosed none]).1⟩
